import Mathlib

/-!
Verification development for the paper-millennialifier repository.

The Python source is shallowly embedded: pure functions of the repository
(`parsers/pdf.py`, `parsers/html.py`, `models.py`, `prompts.py`,
`translator.py`, `parsers/fetcher.py`, `web.py`) become executable Lean
definitions over `List Char` / `String`, and the external collaborators
(HTTP client, PDF text extraction, the BeautifulSoup DOM, the LLM) are
passed in as explicit oracle parameters, exactly at the interface the
source uses them.

Character classes model Python's `re` behaviour on ASCII text: `\d` is
`isAsciiDigit`, `\s` is `pyIsSpace` (the six ASCII whitespace characters),
`str.strip` is `pyStripList`, `str.title` is `pyTitle`, `str.lower` is
`lowerStr`.
-/

namespace Millennialifier

/-! ## Character and string utilities (Python `str` / `re` semantics on ASCII) -/

/-- Python `\s` on ASCII: space, tab, newline, carriage return, vertical tab, form feed. -/
def pyIsSpace (c : Char) : Bool :=
  c.toNat = 32 || c.toNat = 9 || c.toNat = 10 || c.toNat = 13 || c.toNat = 11 || c.toNat = 12

/-- Python `\d` on ASCII. -/
def isAsciiDigit (c : Char) : Bool :=
  48 ≤ c.toNat && c.toNat ≤ 57

def isAsciiUpper (c : Char) : Bool :=
  65 ≤ c.toNat && c.toNat ≤ 90

def isAsciiLower (c : Char) : Bool :=
  97 ≤ c.toNat && c.toNat ≤ 122

def isAsciiAlpha (c : Char) : Bool :=
  isAsciiUpper c || isAsciiLower c

/-- ASCII lowercasing of one character (model of `str.lower` / `re.IGNORECASE` folding). -/
def lowerChar (c : Char) : Char :=
  if isAsciiUpper c then Char.ofNat (c.toNat + 32) else c

/-- ASCII uppercasing of one character. -/
def upperChar (c : Char) : Char :=
  if isAsciiLower c then Char.ofNat (c.toNat - 32) else c

/-- Python `str.strip()` on a character list: drop leading and trailing whitespace. -/
def pyStripList (cs : List Char) : List Char :=
  ((cs.dropWhile pyIsSpace).reverse.dropWhile pyIsSpace).reverse

/-- Python `str.strip()` on a `String`. -/
def pyStrip (s : String) : String :=
  ⟨pyStripList s.data⟩

/-- Python `str.lower()` (ASCII model). -/
def lowerStr (s : String) : String :=
  ⟨s.data.map lowerChar⟩

/-- Python `str.title()` (ASCII model): uppercase a letter not preceded by a
letter, lowercase a letter preceded by a letter. -/
def pyTitleGo : Bool → List Char → List Char
  | _, [] => []
  | prevAlpha, c :: rest =>
    if isAsciiAlpha c then
      (if prevAlpha then lowerChar c else upperChar c) :: pyTitleGo true rest
    else
      c :: pyTitleGo false rest

def pyTitle (cs : List Char) : List Char :=
  pyTitleGo false cs

/-- Python `text.split("\n")` on a character list. -/
def splitOnNl : List Char → List (List Char)
  | [] => [[]]
  | c :: rest =>
    if c = '\n' then [] :: splitOnNl rest
    else
      match splitOnNl rest with
      | l :: ls => (c :: l) :: ls
      | [] => [[c]]

/-- Python `"\n".join(...)` on character lists. -/
def joinNl : List (List Char) → List Char
  | [] => []
  | [l] => l
  | l :: ls => l ++ '\n' :: joinNl ls

/-- Join a list of strings with a separator (Python `sep.join(...)`). -/
def joinSep (sep : String) : List String → String
  | [] => ""
  | [s] => s
  | s :: ss => s ++ sep ++ joinSep sep ss

/-- Does `hay` start with `needle` (case-sensitive)? -/
def startsWithList : List Char → List Char → Bool
  | [], _ => true
  | _ :: _, [] => false
  | a :: as, b :: bs => a = b && startsWithList as bs

/-- Python `needle in hay` substring test on character lists. -/
def containsList (needle : List Char) : List Char → Bool
  | [] => startsWithList needle []
  | c :: rest => startsWithList needle (c :: rest) || containsList needle rest

/-- Python `needle in hay` substring test on strings. -/
def containsStr (needle hay : String) : Bool :=
  containsList needle.data hay.data

/-! ## Document model (`models.py`)

`Section` and `Paper` are the dataclasses of `models.py`; `translated` is
`None` until the translator sets it. -/

structure Section where
  heading : String
  content : String
  translated : Option String := none
deriving DecidableEq, Repr

structure Paper where
  title : String
  authors : List String := []
  abstract : String := ""
  sections : List Section := []
  source_url : Option String := none
  source_format : String := "unknown"
deriving DecidableEq, Repr

/-- The `Paper.all_sections` view: a synthetic "Abstract" section (only when
the abstract is non-empty, Python truthiness of `str`) followed by the
paper's own sections. -/
def Paper.all_sections (p : Paper) : List Section :=
  (if p.abstract = "" then [] else [{ heading := "Abstract", content := p.abstract }]) ++ p.sections

/-- The tone scale of `models.py` (`IntEnum`, values 1-5). -/
inductive ToneLevel where
  | LIGHT
  | MODERATE
  | BALANCED
  | HEAVY
  | UNHINGED
deriving DecidableEq, Repr

def ToneLevel.toInt : ToneLevel → Int
  | .LIGHT => 1
  | .MODERATE => 2
  | .BALANCED => 3
  | .HEAVY => 4
  | .UNHINGED => 5

/-- Python `ToneLevel(n)`: `some` for 1-5, `none` models the raised
`ValueError` for any other value. -/
def toneOfInt (n : Int) : Option ToneLevel :=
  if n = 1 then some .LIGHT
  else if n = 2 then some .MODERATE
  else if n = 3 then some .BALANCED
  else if n = 4 then some .HEAVY
  else if n = 5 then some .UNHINGED
  else none

/-! ## Heading classifier (`parsers/pdf.py`, `_HEADING_PATTERNS`,
`_is_heading`, `_clean_heading`)

Each regex `^(?:\d+\.?\s+)?(NAME)$` (compiled with `re.IGNORECASE`) is an
optional numeral prefix (one digit group, optional period, whitespace)
followed by one alternative of a fixed vocabulary; `NAME` alternations are
expanded below into token sequences, where `NTok.ws` is the regex `\s+`
inside a name such as `related\s+work`. The final pattern
`^(\d+\.?\s+\S.{2,60})$` is the generic numbered heading. -/

inductive NTok where
  | lit : List Char → NTok
  | ws : NTok

/-- Consume a literal case-insensitively (`re.IGNORECASE`): each input
character is lowercased and compared with the pattern character. -/
def dropLitCI : List Char → List Char → Option (List Char)
  | [], cs => some cs
  | _ :: _, [] => none
  | w :: l, c :: cs => if lowerChar c = w then dropLitCI l cs else none

/-- Match a token sequence against the whole input (the patterns are
anchored with `^...$`). `\s+` consumes maximal whitespace; this is exact
for these patterns because every following token starts with a letter. -/
def matchToks : List NTok → List Char → Bool
  | [], cs => cs.isEmpty
  | NTok.lit l :: ts, cs =>
    match dropLitCI l cs with
    | some rest => matchToks ts rest
    | none => false
  | NTok.ws :: ts, cs =>
    match cs with
    | [] => false
    | c :: rest => pyIsSpace c && matchToks ts (rest.dropWhile pyIsSpace)

/-- Shorthand for a literal token. -/
def L (s : String) : NTok := NTok.lit s.data

/-- The canonical-name alternatives of `_HEADING_PATTERNS`, each regex
alternation expanded. -/
def canonAlts : List (List NTok) :=
  [ [L "abstract"], [L "introduction"],
    [L "related", NTok.ws, L "work"], [L "background"],
    [L "method"], [L "methodology"], [L "methods"],
    [L "approach"],
    [L "experiment"], [L "experiments"],
    [L "experimental", NTok.ws, L "setup"], [L "experimental", NTok.ws, L "results"],
    [L "result"], [L "results"], [L "evaluation"], [L "discussion"],
    [L "conclusion"], [L "conclusions"], [L "future", NTok.ws, L "work"],
    [L "acknowledgement"], [L "acknowledgment"],
    [L "acknowledgements"], [L "acknowledgments"],
    [L "reference"], [L "references"], [L "appendix"], [L "appendices"] ]

/-- Does the input match one of the canonical section names in full? -/
def canonTail (cs : List Char) : Bool :=
  canonAlts.any fun ts => matchToks ts cs

/-- Consume the numeral prefix `\d+\.?\s+` of the heading patterns: one or
more digits, an optional single period, then at least one whitespace
character (consumed maximally, which is exact because what follows is
required to start with a non-whitespace character). -/
def dropNumHead (cs : List Char) : Option (List Char) :=
  if (cs.takeWhile isAsciiDigit).isEmpty then none
  else
    let r1 := cs.dropWhile isAsciiDigit
    let r2 := match r1 with
      | '.' :: r => r
      | _ => r1
    match r2 with
    | [] => none
    | c :: rest => if pyIsSpace c then some (rest.dropWhile pyIsSpace) else none

/-- The free-text part of the generic numbered heading `\S.{2,60}$`: a
non-whitespace character followed by 2 to 60 further non-newline
characters, ending the line. -/
def genericTail : List Char → Bool
  | [] => false
  | c :: rest =>
    !pyIsSpace c && decide (2 ≤ rest.length) && decide (rest.length ≤ 60)
      && rest.all fun ch => ch != '\n'

/-- The disjunction of all sixteen heading patterns on a stripped line. -/
def isHeadingCore (cs : List Char) : Bool :=
  canonTail cs
    || (match dropNumHead cs with
        | some r => canonTail r
        | none => false)
    || (match dropNumHead cs with
        | some r => genericTail r
        | none => false)

/-- Model of `_is_heading`: strip, reject empty or over-80-character lines,
then try the heading patterns. -/
def isHeading (line : String) : Bool :=
  let s := pyStripList line.data
  !s.isEmpty && decide (s.length ≤ 80) && isHeadingCore s

/-- Character automaton for the tail `(?:\.\d+)*\.?\s*` of the
`_clean_heading` substitution pattern, entered right after the leading
digit run. State `true` means "just after one or more digits" (a `.`
continues the dotted groups), state `false` means "just after a consumed
period" (a digit continues the groups; anything else means that period
was the final `\.?`). On any other character the optional period is
settled and `\s*` consumes the remaining whitespace. -/
def numTail : Bool → List Char → List Char
  | true, '.' :: rest => numTail false rest
  | true, c :: rest =>
    if isAsciiDigit c then numTail true rest else (c :: rest).dropWhile pyIsSpace
  | true, [] => []
  | false, c :: rest =>
    if isAsciiDigit c then numTail true rest else (c :: rest).dropWhile pyIsSpace
  | false, [] => []

/-- Model of `re.sub(r"^\d+(?:\.\d+)*\.?\s*", "", ...)`: remove a leading
dotted-numeral pattern (nothing is removed when the line does not start
with a digit). -/
def stripNumClean (cs : List Char) : List Char :=
  if (cs.takeWhile isAsciiDigit).isEmpty then cs
  else numTail true (cs.dropWhile isAsciiDigit)

/-- Model of `_clean_heading`: strip, remove a leading numeral, title-case
the remainder if non-empty, otherwise return the stripped line. -/
def cleanHeading (line : String) : String :=
  let s := pyStripList line.data
  let cl := stripNumClean s
  if cl.isEmpty then ⟨s⟩ else ⟨pyTitle cl⟩

/-! ## PDF structurer (`PdfParser._structure_text`) -/

/-- The scan state of the line loop in `_structure_text`. -/
structure ScanState where
  abstract : String
  sections : List Section
  curHeading : Option String
  curLines : List (List Char)
  inBody : Bool

/-- Close out the current heading: join and strip its accumulated lines;
an "abstract" heading stores the body as the abstract, any other heading
appends a `Section`. -/
def closeCur (curHeading : String) (curLines : List (List Char))
    (abstract : String) (sections : List Section) : String × List Section :=
  let body : String := ⟨pyStripList (joinNl curLines)⟩
  if lowerStr curHeading = "abstract" then (body, sections)
  else (abstract, sections ++ [{ heading := curHeading, content := body }])

/-- One iteration of the line loop of `_structure_text`. -/
def stepLine (st : ScanState) (line : List Char) : ScanState :=
  if isHeading ⟨line⟩ then
    let closed :=
      match st.curHeading with
      | some h => closeCur h st.curLines st.abstract st.sections
      | none => (st.abstract, st.sections)
    { abstract := closed.1, sections := closed.2,
      curHeading := some (cleanHeading ⟨line⟩), curLines := [], inBody := true }
  else if st.inBody then
    { st with curLines := st.curLines ++ [line] }
  else st

/-- Model of `PdfParser._structure_text`. -/
def structureText (text : String) (source_format : String) : Paper :=
  let lines := splitOnNl text.data
  let title : String :=
    match lines.find? (fun l => !(pyStripList l).isEmpty) with
    | some l => ⟨pyStripList l⟩
    | none => ""
  let final := lines.foldl stepLine
    { abstract := "", sections := [], curHeading := none, curLines := [], inBody := false }
  let closed :=
    match final.curHeading with
    | some h => closeCur h final.curLines final.abstract final.sections
    | none => (final.abstract, final.sections)
  let sections :=
    if closed.2.isEmpty && closed.1 = "" then
      [{ heading := "Full Paper", content := (⟨pyStripList text.data⟩ : String) }]
    else closed.2
  { title := title, authors := [], abstract := closed.1, sections := sections,
    source_url := none, source_format := source_format }

/-! ## HTML structurer (`parsers/html.py`)

The BeautifulSoup DOM is modelled as a tree of elements and text nodes;
the bs4 operations the source relies on (`find_all(class_=...)`,
`find(class_=...)`, `find(tag)`, `get_text(separator, strip=True)`,
`decompose()`, `.children`, attribute access) are defined below with
bs4's documented semantics: `get_text(strip=True)` joins the stripped
non-empty text nodes of the subtree with the separator, and `find`
returns the first match in document (preorder) order. -/

inductive Node where
  | elem (tag : String) (classes : List String) (attrs : List (String × String)) (children : List Node)
  | text (s : String)

mutual

/-- All text nodes of a subtree, in document order. -/
def allStrings : Node → List String
  | .text s => [s]
  | .elem _ _ _ ch => allStringsL ch

/-- All text nodes below a list of nodes, in document order. -/
def allStringsL : List Node → List String
  | [] => []
  | n :: ns => allStrings n ++ allStringsL ns

end

/-- bs4 `get_text(separator=sep, strip=True)`: join the stripped,
non-empty text nodes with the separator. -/
def getTextStrip (sep : String) (n : Node) : String :=
  joinSep sep (((allStrings n).map pyStrip).filter fun s => s ≠ "")

/-- Does this node carry the given CSS class? -/
def hasClass (c : String) : Node → Bool
  | .elem _ classes _ _ => classes.contains c
  | .text _ => false

/-- Does this node have the given tag name? -/
def hasTag (t : String) : Node → Bool
  | .elem tag _ _ _ => tag = t
  | .text _ => false

mutual

/-- bs4 `find_all` over the descendants of a node (the node itself is not
a candidate), in document order. -/
def findAllBy (p : Node → Bool) : Node → List Node
  | .text _ => []
  | .elem _ _ _ ch => findAllByL p ch

/-- bs4 `find_all` over a list of nodes and their descendants. -/
def findAllByL (p : Node → Bool) : List Node → List Node
  | [] => []
  | n :: ns => (if p n then [n] else []) ++ findAllBy p n ++ findAllByL p ns

end

def findAllClass (c : String) (n : Node) : List Node :=
  findAllBy (hasClass c) n

def findAllTag (t : String) (n : Node) : List Node :=
  findAllBy (hasTag t) n

/-- bs4 `find`: the first matching descendant, if any. -/
def findClass (c : String) (n : Node) : Option Node :=
  (findAllClass c n).head?

def findTag (t : String) (n : Node) : Option Node :=
  (findAllTag t n).head?

mutual

/-- Model of `tag.decompose()` on the first descendant matching `p`:
remove that node (with its whole subtree) from the tree. Returns the new
node and whether a removal happened. -/
def removeFirstBy (p : Node → Bool) : Node → Node × Bool
  | .text s => (.text s, false)
  | .elem tag classes attrs ch =>
    let r := removeFirstByL p ch
    (.elem tag classes attrs r.1, r.2)

/-- Removal of the first match inside a node list (preorder: a node is
checked before its own subtree). -/
def removeFirstByL (p : Node → Bool) : List Node → List Node × Bool
  | [] => ([], false)
  | n :: ns =>
    if p n then (ns, true)
    else
      let r := removeFirstBy p n
      if r.2 then (r.1 :: ns, true)
      else
        let rs := removeFirstByL p ns
        (r.1 :: rs.1, rs.2)

end

/-- Attribute lookup, `tag.get(key)`. -/
def getAttr (k : String) : Node → Option String
  | .elem _ _ attrs _ => (attrs.find? fun kv => kv.1 = k).map fun kv => kv.2
  | .text _ => none

/-- Direct children of a node (`tag.children`). -/
def childNodes : Node → List Node
  | .elem _ _ _ ch => ch
  | .text _ => []

/-- The skip-list `_SKIP_HEADINGS` of `parsers/html.py`. -/
def skipHeadings : List String :=
  ["references", "bibliography", "acknowledgements", "acknowledgments"]

/-- The heading tag set `_HEADING_TAGS` of `parsers/html.py`. -/
def headingTags : List String := ["h1", "h2", "h3", "h4"]

/-- Model of `HtmlParser._extract_title`. -/
def extractTitle (soup : Node) : String :=
  match findClass "ltx_title" soup with
  | some t => getTextStrip "" t
  | none =>
    match findClass "document-title" soup with
    | some t => getTextStrip "" t
    | none =>
      match findClass "title" soup with
      | some t => getTextStrip "" t
      | none =>
        match findTag "title" soup with
        | some t => getTextStrip "" t
        | none => "Untitled"

/-- Model of `HtmlParser._extract_authors`. -/
def extractAuthors (soup : Node) : List String :=
  let fromLtx := ((findAllClass "ltx_personname" soup).map (getTextStrip "")).filter
    fun s => s ≠ ""
  if fromLtx.isEmpty then
    (((findAllTag "meta" soup).filter fun m => getAttr "name" m = some "author").map
      fun m => (getAttr "content" m).getD "").filter fun s => s ≠ ""
  else fromLtx

/-- Model of `HtmlParser._extract_abstract`: the first `ltx_abstract`- or
`abstract`-class element, with its nested `ltx_title` heading removed
before text extraction. -/
def extractAbstract (soup : Node) : String :=
  let fromTag : Node → String := fun tag =>
    match findClass "ltx_title" tag with
    | some _ => getTextStrip "" (removeFirstBy (hasClass "ltx_title") tag).1
    | none => getTextStrip "" tag
  match findClass "ltx_abstract" soup with
  | some tag => fromTag tag
  | none =>
    match findClass "abstract" soup with
    | some tag => fromTag tag
    | none => ""

/-- Model of `HtmlParser._parse_ltx_sections`: one pass over the
`ltx_section` elements, skipping skip-list headings and empty bodies. -/
def parseLtxSections : List Node → List Section
  | [] => []
  | sec :: rest =>
    let headingTag := findClass "ltx_title" sec
    let heading :=
      match headingTag with
      | some t => getTextStrip "" t
      | none => "Untitled Section"
    if skipHeadings.contains (lowerStr heading) then parseLtxSections rest
    else
      let body :=
        match headingTag with
        | some _ => (removeFirstBy (hasClass "ltx_title") sec).1
        | none => sec
      let content := getTextStrip "\n" body
      if content = "" then parseLtxSections rest
      else { heading := heading, content := content } :: parseLtxSections rest

/-- The walk state of `_parse_generic_sections`. -/
structure GenState where
  sections : List Section
  curHeading : Option String
  curParts : List String

/-- Close out the pending generic section: join its accumulated part
texts (`"\n".join(current_parts).strip()`), and emit only a non-empty,
non-skip-list section. -/
def closeGen (st : GenState) : List Section :=
  match st.curHeading with
  | none => st.sections
  | some h =>
    if pyStrip (joinSep "\n" st.curParts) ≠ ""
        && !skipHeadings.contains (lowerStr h) then
      st.sections ++ [{ heading := h, content := pyStrip (joinSep "\n" st.curParts) }]
    else st.sections

/-- One step of the walk over the body's direct children. -/
def stepGen (st : GenState) (n : Node) : GenState :=
  match n with
  | .text _ => st
  | .elem tag _ _ _ =>
    if headingTags.contains tag then
      { sections := closeGen st, curHeading := some (getTextStrip "" n), curParts := [] }
    else
      match st.curHeading with
      | some _ =>
        if getTextStrip "\n" n = "" then st
        else { st with curParts := st.curParts ++ [getTextStrip "\n" n] }
      | none => st

/-- Model of `HtmlParser._parse_generic_sections`. -/
def parseGenericSections (soup : Node) : List Section :=
  if (closeGen ((childNodes ((findTag "body" soup).getD soup)).foldl stepGen
      { sections := [], curHeading := none, curParts := [] })).isEmpty then
    if getTextStrip "\n" soup = "" then []
    else [{ heading := "Full Paper", content := getTextStrip "\n" soup }]
  else
    closeGen ((childNodes ((findTag "body" soup).getD soup)).foldl stepGen
      { sections := [], curHeading := none, curParts := [] })

/-- Model of `HtmlParser._extract_sections`: the `ltx_section` tier when
such wrappers exist, the generic heading walk otherwise. -/
def extractSections (soup : Node) : List Section :=
  if (findAllClass "ltx_section" soup).isEmpty then parseGenericSections soup
  else parseLtxSections (findAllClass "ltx_section" soup)

/-- Model of `HtmlParser.parse_string` applied to an already-parsed DOM. -/
def paperOfDom (soup : Node) : Paper :=
  { title := extractTitle soup, authors := extractAuthors soup,
    abstract := extractAbstract soup, sections := extractSections soup,
    source_url := none, source_format := "html" }

/-! ## Prompts (`prompts.py`) -/

/-- The fixed base-rules block `_BASE_INSTRUCTIONS`. -/
def BASE_INSTRUCTIONS : String :=
  "You are translating a section of a PhD-level research paper into millennial speak.\n\nRules:\n- Preserve ALL factual content, findings, and scientific meaning.\n- Keep technical terms but explain them in parenthetical asides when helpful.\n- Maintain the section structure (paragraphs, key points).\n- Do NOT add information that isn\x27t in the original.\n- Do NOT remove important caveats, limitations, or nuance.\n- If there are equations or formulas, keep them but add a casual explanation.\n- Output ONLY the translated text. No meta-commentary about the translation.\n"

/-- The dictionary `_TONE_INSTRUCTIONS`, one block per tone level. -/
def TONE_INSTRUCTIONS : List (ToneLevel × String) :=
  [ (.LIGHT, "Tone: Light casual. Think \"explaining your research at a dinner party.\"\n- Use conversational language but keep it relatively professional.\n- Occasional informal phrasing (\"turns out,\" \"basically,\" \"pretty wild\").\n- Minimal slang. No emojis.\n- Like a well-written blog post by a grad student.\n"),
    (.MODERATE, "Tone: Moderately casual. Think \"texting a smart friend about your thesis.\"\n- Clearly informal but still coherent and structured.\n- Use some millennial slang (\"lowkey,\" \"honestly,\" \"it\x27s giving\").\n- Light humor and relatable analogies welcome.\n- Occasional rhetorical asides (\"yes, really\").\n"),
    (.BALANCED, "Tone: Balanced millennial. Think \"a podcast host who has a PhD but also goes to brunch.\"\n- Confident casual voice with solid millennial energy.\n- Use slang naturally (\"literally,\" \"I\x27m not gonna lie,\" \"let\x27s unpack this,\" \"big yikes\").\n- Pop culture analogies where they actually clarify things.\n- Self-aware humor about how dense the original material is.\n- Still clearly communicates the science — the vibe is accessible, not dumbed down.\n"),
    (.HEAVY, "Tone: Heavy millennial. Think \"your most dramatic friend who also happens to be brilliant.\"\n- Very casual, high slang density (\"no cap,\" \"rent-free,\" \"main character energy,\" \"the vibes are immaculate\").\n- Dramatic reactions to findings (\"I am DECEASED,\" \"this is sending me\").\n- Frequent pop culture references and analogies.\n- Emoji use is acceptable but not required.\n- The science is still there, just wrapped in peak millennial delivery.\n"),
    (.UNHINGED, "Tone: Full unhinged millennial chaos. Think \"chaotic group chat energy from someone defending their dissertation.\"\n- Maximum slang, maximum drama, maximum relatability.\n- Stream-of-consciousness asides, ALL CAPS moments, emoji flourishes.\n- \"bestie let me tell you\" energy throughout.\n- Every finding gets a dramatic reaction.\n- References to avocado toast, therapy, existential dread, and vibes are encouraged.\n- THE SCIENCE MUST STILL BE CORRECT. This is unhinged in delivery, not in accuracy.\n") ]

/-- Dictionary lookup `_TONE_INSTRUCTIONS[tone]`. -/
def lookupTone (t : ToneLevel) : Option String :=
  (TONE_INSTRUCTIONS.find? fun kv => kv.1 = t).map fun kv => kv.2

/-- Model of `build_system_prompt`: base rules, a newline, then the tone
block; `none` models the `KeyError` of a missing dictionary entry. -/
def buildSystemPrompt (t : ToneLevel) : Option String :=
  (lookupTone t).map fun block => BASE_INSTRUCTIONS ++ "\n" ++ block

/-- Model of `build_section_prompt`. -/
def buildSectionPrompt (heading content : String) : String :=
  "Translate this paper section into millennial speak.\n\n## Section: " ++ heading
    ++ "\n\n" ++ content

/-! ## Translation orchestrator (`translator.py`)

The LLM collaborator is an oracle `llm : String → String → String` taking
the system prompt and the user message and returning the completion text,
exactly the `llm.complete` interface `translate_section` uses. -/

/-- Model of `translate_section` (the provider resolution is the oracle). -/
def translateSection (llm : String → String → String) (tone : ToneLevel) (s : Section) : String :=
  llm ((buildSystemPrompt tone).getD "") (buildSectionPrompt s.heading s.content)

/-- Model of `translate_paper`: translate every entry of `all_sections()`
in order, then reassemble — when the input abstract was non-empty the
first result becomes the new abstract (`or paper.abstract`: an empty,
falsy result leaves the abstract unchanged) and the remaining entries
become the sections; otherwise the translated entries are the sections
with no offset. -/
def translatePaper (llm : String → String → String) (tone : ToneLevel) (p : Paper) : Paper :=
  let allSecs := p.all_sections.map fun s =>
    { s with translated := some (translateSection llm tone s) }
  if p.abstract ≠ "" ∧ allSecs ≠ [] then
    { p with
      abstract :=
        match allSecs.head? with
        | some s0 =>
          match s0.translated with
          | some t => if t = "" then p.abstract else t
          | none => p.abstract
        | none => p.abstract,
      sections := allSecs.drop 1 }
  else
    { p with sections := allSecs }

/-! ## Source resolver (`parsers/fetcher.py`)

The HTTP client is an oracle `net : String → Except Unit HttpResponse`
(`Except.error` models a raised `httpx.HTTPError`); PDF text extraction
(`pymupdf`) is an oracle `extract` from response bytes to the page text
stream; HTML parsing (bs4) is an oracle `parseDom` from markup to a DOM.
`fetchRemote` records every `client.get` it issues, in order. -/

structure HttpResponse where
  status : Nat
  contentType : String
  respText : String
  content : List Nat
deriving DecidableEq, Repr

inductive FetchErr where
  | transport
  | httpStatus (code : Nat)
deriving DecidableEq, Repr

structure FetchOut where
  result : Except FetchErr Paper
  requests : List String

/-- Is a character in the class `[\w.]` of the arXiv URL patterns? -/
def isWordDot (c : Char) : Bool :=
  isAsciiAlpha c || isAsciiDigit c || c = '_' || c = '.'

/-- Consume a case-sensitive literal. -/
def dropLit : List Char → List Char → Option (List Char)
  | [], cs => some cs
  | _ :: _, [] => none
  | w :: l, c :: cs => if w = c then dropLit l cs else none

/-- Model of `re.search` for `LITERAL([\w.]+)`: scan left to right for the
first position where the literal matches and at least one `[\w.]`
character follows; the captured group is the maximal such run. -/
def searchIdAfter (pat : List Char) : List Char → Option (List Char)
  | [] =>
    match dropLit pat [] with
    | some rest => if (rest.takeWhile isWordDot).isEmpty then none else some (rest.takeWhile isWordDot)
    | none => none
  | c :: rest =>
    match dropLit pat (c :: rest) with
    | some r =>
      let cap := r.takeWhile isWordDot
      if cap.isEmpty then searchIdAfter pat rest else some cap
    | none => searchIdAfter pat rest

/-- Model of `_arxiv_id_from_url`: try the `abs` pattern, then the `pdf`
pattern. -/
def arxivIdFromUrl (url : String) : Option String :=
  match searchIdAfter "arxiv.org/abs/".data url.data with
  | some cap => some ⟨cap⟩
  | none =>
    match searchIdAfter "arxiv.org/pdf/".data url.data with
    | some cap => some ⟨cap⟩
    | none => none

def arxivHtmlUrl (arxivId : String) : String :=
  "https://arxiv.org/html/" ++ arxivId

def arxivPdfUrl (arxivId : String) : String :=
  "https://arxiv.org/pdf/" ++ arxivId

/-- `Response.raise_for_status()`: only a 2xx status passes. -/
def is2xx (n : Nat) : Bool :=
  200 ≤ n && n < 300

/-- Model of `HtmlParser.parse_string` (DOM parsing by oracle). -/
def parseHtmlString (parseDom : String → Node) (html : String) : Paper :=
  paperOfDom (parseDom html)

/-- Model of `PdfParser.parse_bytes` (text extraction by oracle). -/
def parsePdfBytes (extract : List Nat → String) (data : List Nat) : Paper :=
  structureText (extract data) "pdf"

/-- The non-arXiv path of `_fetch_remote`: one GET, `raise_for_status`,
then branch on the content-type header. -/
def fetchGeneric (net : String → Except Unit HttpResponse) (parseDom : String → Node)
    (extract : List Nat → String) (url : String) : FetchOut :=
  match net url with
  | .error _ => { result := .error .transport, requests := [url] }
  | .ok resp =>
    if is2xx resp.status then
      if containsStr "pdf" resp.contentType then
        { result := .ok { parsePdfBytes extract resp.content with source_url := some url },
          requests := [url] }
      else
        { result := .ok { parseHtmlString parseDom resp.respText with source_url := some url },
          requests := [url] }
    else { result := .error (.httpStatus resp.status), requests := [url] }

/-- The "fall back to PDF" block of `_fetch_remote`: one GET of the arXiv
PDF URL, `raise_for_status`, then `PdfParser.parse_bytes`. The request log
starts with the already-attempted arXiv HTML URL. -/
def fetchArxivPdf (net : String → Except Unit HttpResponse)
    (extract : List Nat → String) (url arxivId : String) : FetchOut :=
  match net (arxivPdfUrl arxivId) with
  | .error _ =>
    { result := .error .transport, requests := [arxivHtmlUrl arxivId, arxivPdfUrl arxivId] }
  | .ok resp =>
    if is2xx resp.status then
      { result := .ok { parsePdfBytes extract resp.content with source_url := some url },
        requests := [arxivHtmlUrl arxivId, arxivPdfUrl arxivId] }
    else
      { result := .error (.httpStatus resp.status),
        requests := [arxivHtmlUrl arxivId, arxivPdfUrl arxivId] }

/-- Model of `_fetch_remote`: for an arXiv URL with HTML preferred, try the
arXiv HTML rendering and silently fall back to the arXiv PDF on any
transport error or non-qualifying response; otherwise a single GET. -/
def fetchRemote (net : String → Except Unit HttpResponse) (parseDom : String → Node)
    (extract : List Nat → String) (url : String) (preferHtml : Bool) : FetchOut :=
  match arxivIdFromUrl url with
  | some arxivId =>
    if preferHtml then
      match net (arxivHtmlUrl arxivId) with
      | .ok resp =>
        if resp.status = 200 && containsStr "text/html" resp.contentType then
          { result := .ok { parseHtmlString parseDom resp.respText with source_url := some url },
            requests := [arxivHtmlUrl arxivId] }
        else fetchArxivPdf net extract url arxivId
      | .error _ => fetchArxivPdf net extract url arxivId
    else fetchGeneric net parseDom extract url
  | none => fetchGeneric net parseDom extract url

/-! ## Web endpoint (`web.py`, `translate`)

The handler's control flow, with its externally visible steps recorded in
order: `ToneLevel(tone)` is the first statement, before the provider
configuration check, before any file read or URL fetch, and before any
LLM call. -/

inductive WebEv where
  | provCheck
  | readUpload
  | fetchUrl (u : String)
  | llmRun
deriving DecidableEq, Repr

inductive WebError where
  | invalidTone (v : Int)
  | notConfigured
  | noInput
deriving DecidableEq, Repr

/-- Model of the `translate` endpoint of `web.py`: tone validation first,
then the provider-configuration check, then input resolution (uploaded
file, else URL, else an error), then the translation run. -/
def webTranslate (providerOk : Bool) (upload : Option String) (url : String)
    (tone : Int) : Except WebError Unit × List WebEv :=
  match toneOfInt tone with
  | none => (.error (.invalidTone tone), [])
  | some _ =>
    if providerOk then
      match upload with
      | some _ => (.ok (), [.provCheck, .readUpload, .llmRun])
      | none =>
        if url ≠ "" then (.ok (), [.provCheck, .fetchUrl url, .llmRun])
        else (.error .noInput, [.provCheck])
    else (.error .notConfigured, [.provCheck])

/-! ## Auxiliary predicates and concrete inputs used by the theorems -/

/-- Is a direct child a heading-level element (`element.name in _HEADING_TAGS`)? -/
def isHeadingElem : Node → Bool
  | .elem tag _ _ _ => headingTags.contains tag
  | .text _ => false

/-- Soundness predicate for sections produced by the HTML structurer:
non-empty content and a heading outside the skip-list. -/
def sectionOk (s : Section) : Prop :=
  s.content ≠ "" ∧ skipHeadings.contains (lowerStr s.heading) = false

/-- Invariant carried through the generic heading walk. -/
def genOk (st : GenState) : Prop :=
  ∀ s ∈ st.sections, sectionOk s

/-- The canonical section names of `_HEADING_PATTERNS`, alternations
expanded, in lowercase with single spaces. -/
def canonNames : List String :=
  [ "abstract", "introduction", "related work", "background",
    "method", "methodology", "methods", "approach",
    "experiment", "experiments", "experimental setup", "experimental results",
    "result", "results", "evaluation", "discussion",
    "conclusion", "conclusions", "future work",
    "acknowledgement", "acknowledgment", "acknowledgements", "acknowledgments",
    "reference", "references", "appendix", "appendices" ]

/-- Decidable facts about one canonical name that the heading theorems
need: non-empty, first and last characters are neither whitespace nor (for
the first) a digit, and the name matches the canonical-name patterns. -/
def goodName (name : String) : Bool :=
  !name.data.isEmpty
    && !pyIsSpace (name.data.headD '.')
    && !isAsciiDigit (name.data.headD '.')
    && !pyIsSpace (name.data.reverse.headD '.')
    && canonTail name.data

/-- Does an alternative start with a literal whose first character is a
lowercase letter? True for every entry of `canonAlts`. -/
def altStartsLower : List NTok → Bool
  | NTok.lit (w :: _) :: _ => 97 ≤ w.toNat && w.toNat ≤ 122
  | _ => false

/-- The PDF text of the spec's worked example (testable property 4). -/
def c1Text : String :=
  "Title\n\nAbstract\nThis is the abstract.\n\n1. Introduction\nBody text here.\n\nReferences\nSome citations.\n"

/-- A PDF text whose first heading has an empty body. -/
def c4Text : String := "Introduction\nMethods\nbody"

/-- A paper with a non-empty abstract and one section. -/
def pEx : Paper :=
  { title := "T", abstract := "A", sections := [{ heading := "S", content := "c" }] }

/-- The same paper with an empty abstract. -/
def pExNoAbs : Paper := { pEx with abstract := "" }

/-- A one-section DOM with no semantic markup: the generic walk finds no
heading and falls back to a single "Full Paper" section. -/
def domPlain : Node :=
  .elem "[document]" [] []
    [.elem "html" [] [] [.elem "body" [] [] [.elem "p" [] [] [.text " just text "]]]]

/-- A DOM with no text at all. -/
def domBare : Node :=
  .elem "[document]" [] [] [.elem "html" [] [] [.elem "body" [] [] []]]

/-- An HTTP oracle for the arXiv fallback scenario: the HTML rendering
answers 500, the PDF URL answers 404, anything else is a transport error. -/
def netEx : String → Except Unit HttpResponse := fun u =>
  if u = "https://arxiv.org/html/2301.12345" then .ok ⟨500, "text/html", "", []⟩
  else if u = "https://arxiv.org/pdf/2301.12345" then .ok ⟨404, "application/pdf", "", []⟩
  else .error ()

/-- An HTTP oracle whose every answer is a qualifying HTML success. -/
def netOk : String → Except Unit HttpResponse := fun _ =>
  .ok ⟨200, "text/html", "", []⟩

/-- A trivial DOM-parsing oracle. -/
def domOracle : String → Node := fun _ => .text ""

/-- A trivial PDF-extraction oracle. -/
def pdfOracle : List Nat → String := fun _ => ""

/-! ## General lemmas -/

theorem digit_not_space {c : Char} (h : isAsciiDigit c = true) : pyIsSpace c = false := by
  simp only [isAsciiDigit, Bool.and_eq_true, decide_eq_true_eq] at h
  simp only [pyIsSpace, Bool.or_eq_false_iff, decide_eq_false_iff_not]
  omega

theorem takeWhile_all_append {p : Char → Bool} {x : Char} (ds rest : List Char)
    (hds : ∀ c ∈ ds, p c = true) (hx : p x = false) :
    (ds ++ x :: rest).takeWhile p = ds ∧ (ds ++ x :: rest).dropWhile p = x :: rest := by
  have hx' : ¬ p x = true := by simp [hx]
  induction ds with
  | nil =>
    constructor
    · simp [List.takeWhile_cons_of_neg hx']
    · simp [List.dropWhile_cons_of_neg hx']
  | cons d ds ih =>
    have hd : p d = true := hds d (List.mem_cons_self _ _)
    obtain ⟨ht, hdr⟩ := ih fun c hc => hds c (List.mem_cons_of_mem _ hc)
    constructor
    · rw [List.cons_append, List.takeWhile_cons_of_pos hd, ht]
    · rw [List.cons_append, List.dropWhile_cons_of_pos hd, hdr]

theorem dropWhile_all_true {p : Char → Bool} {l : List Char} (h : ∀ c ∈ l, p c = true) :
    l.dropWhile p = [] := by
  induction l with
  | nil => rfl
  | cons c t ih =>
    rw [List.dropWhile_cons_of_pos (h c (List.mem_cons_self _ _))]
    exact ih fun x hx => h x (List.mem_cons_of_mem _ hx)

theorem pyStripList_all_ws {l : List Char} (h : ∀ c ∈ l, pyIsSpace c = true) :
    pyStripList l = [] := by
  unfold pyStripList
  rw [dropWhile_all_true h]
  rfl

theorem pyStripList_fixed {cs : List Char} (hne : cs ≠ [])
    (hhead : pyIsSpace (cs.headD ' ') = false)
    (hlast : pyIsSpace (cs.reverse.headD ' ') = false) :
    pyStripList cs = cs := by
  obtain ⟨c, t, rfl⟩ := List.exists_cons_of_ne_nil hne
  have hrevne : (c :: t).reverse ≠ [] := by simp
  obtain ⟨c', t', hrev⟩ := List.exists_cons_of_ne_nil hrevne
  rw [List.headD_cons] at hhead
  rw [hrev, List.headD_cons] at hlast
  unfold pyStripList
  rw [List.dropWhile_cons_of_neg (by simp [hhead]), hrev,
    List.dropWhile_cons_of_neg (by simp [hlast]), ← hrev, List.reverse_reverse]

theorem splitOnNl_ne_nil (cs : List Char) : splitOnNl cs ≠ [] := by
  cases cs with
  | nil => simp [splitOnNl]
  | cons c rest =>
    simp only [splitOnNl]
    split
    · simp
    · split <;> simp

theorem mem_splitOnNl {cs l : List Char} (hl : l ∈ splitOnNl cs) : ∀ c ∈ l, c ∈ cs := by
  induction cs generalizing l with
  | nil =>
    simp only [splitOnNl, List.mem_singleton] at hl
    subst hl
    simp
  | cons ch rest ih =>
    simp only [splitOnNl] at hl
    by_cases hch : ch = '\n'
    · rw [if_pos hch] at hl
      rcases List.mem_cons.mp hl with h | h
      · subst h; simp
      · exact fun c hc => List.mem_cons_of_mem _ (ih h c hc)
    · rw [if_neg hch] at hl
      rcases hsp : splitOnNl rest with _ | ⟨l0, ls⟩
      · exact absurd hsp (splitOnNl_ne_nil rest)
      · rw [hsp] at hl
        rcases List.mem_cons.mp hl with h | h
        · subst h
          intro c hc
          rcases List.mem_cons.mp hc with rfl | hc'
          · exact List.mem_cons_self _ _
          · have hm : l0 ∈ splitOnNl rest := by rw [hsp]; exact List.mem_cons_self _ _
            exact List.mem_cons_of_mem _ (ih hm c hc')
        · intro c hc
          have hm : l ∈ splitOnNl rest := by rw [hsp]; exact List.mem_cons_of_mem _ h
          exact List.mem_cons_of_mem _ (ih hm c hc)

/-! ## Heading classifier lemmas -/

theorem canonAlts_start_lower : canonAlts.all altStartsLower = true := by decide

theorem canonNames_good : canonNames.all goodName = true := by decide

theorem lowerChar_of_digit {c : Char} (h : isAsciiDigit c = true) : lowerChar c = c := by
  unfold lowerChar
  rw [if_neg]
  simp only [isAsciiDigit, Bool.and_eq_true, decide_eq_true_eq] at h
  simp only [isAsciiUpper, Bool.and_eq_true, decide_eq_true_eq, not_and]
  omega

theorem matchToks_digit_false {alt : List NTok} (halt : altStartsLower alt = true)
    {c : Char} (hc : isAsciiDigit c = true) (rest : List Char) :
    matchToks alt (c :: rest) = false := by
  match alt with
  | [] => simp [altStartsLower] at halt
  | NTok.ws :: _ => simp [altStartsLower] at halt
  | NTok.lit [] :: _ => simp [altStartsLower] at halt
  | NTok.lit (w :: l) :: ts =>
    simp only [altStartsLower, Bool.and_eq_true, decide_eq_true_eq] at halt
    have hne : lowerChar c ≠ w := by
      rw [lowerChar_of_digit hc]
      intro hcw
      have : c.toNat = w.toNat := by rw [hcw]
      simp only [isAsciiDigit, Bool.and_eq_true, decide_eq_true_eq] at hc
      omega
    simp only [matchToks, dropLitCI, if_neg hne]

theorem canonTail_digit_false {c : Char} (hc : isAsciiDigit c = true) (rest : List Char) :
    canonTail (c :: rest) = false := by
  unfold canonTail
  rw [List.any_eq_false]
  intro alt halt
  simp only [Bool.not_eq_true]
  exact matchToks_digit_false (List.all_eq_true.mp canonAlts_start_lower alt halt) hc rest

theorem dropNumHead_digits {ds ts : List Char} (hne : ds ≠ [])
    (hds : ∀ c ∈ ds, isAsciiDigit c = true)
    (hts : ts.dropWhile pyIsSpace = ts) :
    dropNumHead (ds ++ '.' :: ' ' :: ts) = some ts := by
  obtain ⟨ht, hd⟩ := takeWhile_all_append ds (' ' :: ts) hds (x := '.') (by decide)
  unfold dropNumHead
  rw [ht, hd]
  rw [if_neg (by simp [List.isEmpty_iff, hne])]
  simp only []
  rw [show pyIsSpace ' ' = true from by decide]
  simp [hts]

theorem dropWhile_ws_of_headD {ts : List Char} (h : pyIsSpace (ts.headD '.') = false) :
    ts.dropWhile pyIsSpace = ts := by
  cases ts with
  | nil => rfl
  | cons c t =>
    rw [List.headD_cons] at h
    exact List.dropWhile_cons_of_neg (by simp [h])

theorem stripNumClean_digits {ds ts : List Char} (hne : ds ≠ [])
    (hds : ∀ c ∈ ds, isAsciiDigit c = true)
    (hts : ts.dropWhile pyIsSpace = ts) :
    stripNumClean (ds ++ '.' :: ' ' :: ts) = ts := by
  obtain ⟨ht, hd⟩ := takeWhile_all_append ds (' ' :: ts) hds (x := '.') (by decide)
  unfold stripNumClean
  rw [ht, if_neg (by simp [List.isEmpty_iff, hne]), hd]
  show numTail false (' ' :: ts) = ts
  show (if isAsciiDigit ' ' then numTail true ts else (' ' :: ts).dropWhile pyIsSpace) = ts
  rw [if_neg (by decide), List.dropWhile_cons_of_pos (by decide), hts]

theorem pyStripList_heading_shape {ds ts : List Char} (hne : ds ≠ [])
    (hds : ∀ c ∈ ds, isAsciiDigit c = true) (htne : ts ≠ [])
    (hlast : pyIsSpace (ts.reverse.headD '.') = false) :
    pyStripList (ds ++ '.' :: ' ' :: ts) = ds ++ '.' :: ' ' :: ts := by
  obtain ⟨d, ds', rfl⟩ := List.exists_cons_of_ne_nil hne
  obtain ⟨c', t', hrev⟩ := List.exists_cons_of_ne_nil (fun h => htne (List.reverse_eq_nil_iff.mp h))
  apply pyStripList_fixed (by simp)
  · rw [List.cons_append, List.headD_cons]
    exact digit_not_space (hds d (List.mem_cons_self _ _))
  · rw [show ((d :: ds') ++ '.' :: ' ' :: ts).reverse
        = ts.reverse ++ [' ', '.'] ++ (d :: ds').reverse from by simp]
    rw [hrev] at hlast ⊢
    rw [List.headD_cons] at hlast
    simpa using hlast

theorem isHeading_stripped {cs : List Char} (h1 : pyStripList cs = cs) (hne : cs ≠ [])
    (hlen : cs.length ≤ 80) : isHeading ⟨cs⟩ = isHeadingCore cs := by
  unfold isHeading
  show (!(pyStripList cs).isEmpty && decide ((pyStripList cs).length ≤ 80)
      && isHeadingCore (pyStripList cs)) = isHeadingCore cs
  rw [h1]
  rw [show cs.isEmpty = false from by simp [List.isEmpty_iff, hne]]
  rw [decide_eq_true hlen]
  rfl

theorem isHeadingCore_numshape {ds ts : List Char} (hne : ds ≠ [])
    (hds : ∀ c ∈ ds, isAsciiDigit c = true)
    (hhead : pyIsSpace (ts.headD '.') = false) :
    isHeadingCore (ds ++ '.' :: ' ' :: ts) = (canonTail ts || genericTail ts) := by
  obtain ⟨d, ds', rfl⟩ := List.exists_cons_of_ne_nil hne
  unfold isHeadingCore
  rw [dropNumHead_digits hne hds (dropWhile_ws_of_headD hhead), List.cons_append,
    canonTail_digit_false (hds d (List.mem_cons_self _ _))]
  simp

/-! ## HTML structurer lemmas -/

theorem parseLtxSections_ok (l : List Node) : ∀ s ∈ parseLtxSections l, sectionOk s := by
  induction l with
  | nil => intro s hs; simp [parseLtxSections] at hs
  | cons sec rest ih =>
    intro s hs
    simp only [parseLtxSections] at hs
    split at hs
    · exact ih s hs
    · split at hs
      · exact ih s hs
      · rcases List.mem_cons.mp hs with rfl | h
        · rename_i hskip hcontent
          exact ⟨hcontent, by simpa using hskip⟩
        · exact ih s h

theorem closeGen_ok {st : GenState} (h : genOk st) : ∀ s ∈ closeGen st, sectionOk s := by
  intro s hs
  unfold closeGen at hs
  split at hs
  · exact h s hs
  · split at hs
    · rcases List.mem_append.mp hs with hmem | hmem
      · exact h s hmem
      · rw [List.mem_singleton] at hmem
        subst hmem
        rename_i hguard
        simp only [Bool.and_eq_true, decide_eq_true_eq, Bool.not_eq_true'] at hguard
        exact ⟨hguard.1, hguard.2⟩
    · exact h s hs

theorem stepGen_ok {st : GenState} (h : genOk st) (n : Node) : genOk (stepGen st n) := by
  cases n with
  | text s => exact h
  | elem tag classes attrs ch =>
    simp only [stepGen]
    split
    · exact fun s hs => closeGen_ok h s hs
    · split
      · split
        · exact h
        · exact h
      · exact h

theorem foldl_stepGen_ok (ns : List Node) {st : GenState} (h : genOk st) :
    genOk (ns.foldl stepGen st) := by
  induction ns generalizing st with
  | nil => exact h
  | cons n ns ih => exact ih (stepGen_ok h n)

theorem parseGenericSections_ok (d : Node) : ∀ s ∈ parseGenericSections d, sectionOk s := by
  intro s hs
  unfold parseGenericSections at hs
  split at hs
  · split at hs
    · simp at hs
    · rw [List.mem_singleton] at hs
      subst hs
      rename_i hni
      refine ⟨hni, ?_⟩
      show skipHeadings.contains (lowerStr "Full Paper") = false
      decide
  · exact closeGen_ok (foldl_stepGen_ok _ (by intro s hs; simp [genOk] at hs)) s hs

theorem extractSections_ok (d : Node) : ∀ s ∈ extractSections d, sectionOk s := by
  intro s hs
  unfold extractSections at hs
  split at hs
  · exact parseGenericSections_ok d s hs
  · exact parseLtxSections_ok _ s hs

theorem stepGen_nonheading {st : GenState} {n : Node} (hn : isHeadingElem n = false)
    (hcur : st.curHeading = none) : stepGen st n = st := by
  cases n with
  | text s => rfl
  | elem tag classes attrs ch =>
    simp only [stepGen]
    rw [if_neg (by simpa [isHeadingElem] using hn), hcur]

theorem foldl_stepGen_nonheading {ns : List Node}
    (h : ∀ n ∈ ns, isHeadingElem n = false) :
    ns.foldl stepGen { sections := [], curHeading := none, curParts := [] }
      = { sections := [], curHeading := none, curParts := [] } := by
  induction ns with
  | nil => rfl
  | cons n ns ih =>
    rw [List.foldl_cons, stepGen_nonheading (h n (List.mem_cons_self _ _)) rfl]
    exact ih fun m hm => h m (List.mem_cons_of_mem _ hm)

theorem parseGeneric_noheads (d : Node)
    (h : ∀ n ∈ childNodes ((findTag "body" d).getD d), isHeadingElem n = false) :
    parseGenericSections d
      = if getTextStrip "\n" d = "" then []
        else [{ heading := "Full Paper", content := getTextStrip "\n" d }] := by
  unfold parseGenericSections
  rw [foldl_stepGen_nonheading h]
  rfl

/-! ## PDF structurer lemmas -/

theorem isHeading_of_all_ws {l : List Char} (h : ∀ c ∈ l, pyIsSpace c = true) :
    isHeading ⟨l⟩ = false := by
  show (!(pyStripList l).isEmpty && decide ((pyStripList l).length ≤ 80)
      && isHeadingCore (pyStripList l)) = false
  rw [pyStripList_all_ws h]
  rfl

theorem foldl_stepLine_no_heading {lines : List (List Char)}
    (h : ∀ l ∈ lines, isHeading ⟨l⟩ = false) :
    lines.foldl stepLine
      { abstract := "", sections := [], curHeading := none, curLines := [], inBody := false }
      = { abstract := "", sections := [], curHeading := none, curLines := [], inBody := false } := by
  induction lines with
  | nil => rfl
  | cons l ls ih =>
    rw [List.foldl_cons]
    have hst : stepLine
        { abstract := "", sections := [], curHeading := none, curLines := [], inBody := false } l
        = { abstract := "", sections := [], curHeading := none, curLines := [],
            inBody := false } := by
      unfold stepLine
      rw [if_neg (by simp [h l (List.mem_cons_self _ _)])]
      rfl
    rw [hst]
    exact ih fun m hm => h m (List.mem_cons_of_mem _ hm)

/-! ## Claim theorems -/

/-- C1 (corrected): the skip-list invariant holds for every Paper built by
the HTML structurer, but the PDF structurer applies no skip-list at all:
on the spec's own example text it produces the Introduction section and a
References section (title and abstract otherwise as the spec says). -/
theorem claim_C1 :
    (∀ d : Node, ∀ s ∈ extractSections d,
        skipHeadings.contains (lowerStr s.heading) = false)
    ∧ structureText c1Text "pdf"
        = { title := "Title", authors := [], abstract := "This is the abstract.",
            sections := [{ heading := "Introduction", content := "Body text here." },
                         { heading := "References", content := "Some citations." }],
            source_url := none, source_format := "pdf" } :=
  ⟨fun d s hs => (extractSections_ok d s hs).2, by decide⟩

/-- C1 counterexample: on the claim's own PDF input the structurer keeps a
"References" section, so the Paper has two sections, one of them with a
skip-list heading. -/
theorem claim_C1_counterexample :
    (structureText c1Text "pdf").sections.map Section.heading = ["Introduction", "References"]
    ∧ skipHeadings.contains (lowerStr "References") = true := by decide

/-- C1 witness: the HTML invariant applied to a concrete document. -/
theorem claim_C1_witness :
    skipHeadings.contains
      (lowerStr ({ heading := "Full Paper", content := "just text" } : Section).heading) = false :=
  claim_C1.1 domPlain { heading := "Full Paper", content := "just text" } (by decide)

/-- C2 (corrected): `translate_paper` keeps the section count, writes each
section's translation in order with the expected offset, and maps the
abstract to its translated text — except that an empty (falsy) translated
abstract leaves the original abstract in place, because of the
`or paper.abstract` fallback. -/
theorem claim_C2 (llm : String → String → String) (tone : ToneLevel) (p : Paper) :
    (p.abstract ≠ "" →
      (translatePaper llm tone p).sections
          = p.sections.map (fun s => { s with translated := some (translateSection llm tone s) })
      ∧ (translatePaper llm tone p).sections.length = p.sections.length
      ∧ (translatePaper llm tone p).abstract
          = (if translateSection llm tone { heading := "Abstract", content := p.abstract } = ""
             then p.abstract
             else translateSection llm tone { heading := "Abstract", content := p.abstract }))
    ∧ (p.abstract = "" →
      (translatePaper llm tone p).sections
        = p.sections.map fun s => { s with translated := some (translateSection llm tone s) }) := by
  constructor
  · intro h
    unfold translatePaper Paper.all_sections
    rw [if_neg h]
    simp only [List.singleton_append, List.map_cons]
    rw [if_pos ⟨h, by simp⟩]
    refine ⟨by simp, by simp, ?_⟩
    simp only [List.head?_cons]
  · intro h
    unfold translatePaper Paper.all_sections
    rw [if_pos h]
    simp only [List.nil_append]
    rw [if_neg (by simp [h])]

/-- C2 counterexample: with a translation oracle answering the empty
string, the output abstract stays the original, not the produced
translation. -/
theorem claim_C2_counterexample :
    (translatePaper (fun _ _ => "") ToneLevel.BALANCED pEx).abstract
      ≠ translateSection (fun _ _ => "") ToneLevel.BALANCED
          { heading := "Abstract", content := "A" } := by decide

/-- C2 witness: the amended reassembly at a concrete paper and a non-empty
translation oracle. -/
theorem claim_C2_witness :
    (translatePaper (fun _ _ => "yo") ToneLevel.BALANCED pEx).sections
        = [{ heading := "S", content := "c", translated := some "yo" }]
    ∧ (translatePaper (fun _ _ => "yo") ToneLevel.BALANCED pEx).abstract = "yo" := by
  obtain ⟨h1, h2, h3⟩ := (claim_C2 (fun _ _ => "yo") ToneLevel.BALANCED pEx).1 (by decide)
  constructor
  · rw [h1]; decide
  · rw [h3]; decide

/-- C3 (corrected): the heading patterns only allow a single digit group
before a canonical name, so the dotted-numeral line "3.2 Related Work" is
not a heading at all — while `normalize_heading` does strip dotted
numerals and returns "Related Work" for it. For a single-group prefix
"N. name" with a canonical name, `is_heading` accepts and
`normalize_heading` returns the title-cased name. -/
theorem claim_C3 :
    isHeading "3.2 Related Work" = false
    ∧ cleanHeading "3.2 Related Work" = "Related Work"
    ∧ ∀ (ds : List Char) (name : String), ds ≠ [] →
        (∀ c ∈ ds, isAsciiDigit c = true) → name ∈ canonNames →
        ds.length + 2 + name.length ≤ 80 →
        isHeading ⟨ds ++ '.' :: ' ' :: name.data⟩ = true
        ∧ cleanHeading ⟨ds ++ '.' :: ' ' :: name.data⟩ = ⟨pyTitle name.data⟩ := by
  refine ⟨by decide, by decide, ?_⟩
  intro ds name hne hds hmem hlen
  have hgood := List.all_eq_true.mp canonNames_good name hmem
  simp only [goodName, Bool.and_eq_true, Bool.not_eq_true'] at hgood
  obtain ⟨⟨⟨⟨hne', hhead⟩, hdig⟩, hlast⟩, hcanon⟩ := hgood
  have hnn : name.data ≠ [] := by simpa [List.isEmpty_iff] using hne'
  have hstrip := pyStripList_heading_shape hne hds hnn hlast
  have hdlen : name.data.length = name.length := rfl
  constructor
  · rw [isHeading_stripped hstrip (by simp)
      (by simp only [List.length_append, List.length_cons]; omega)]
    rw [isHeadingCore_numshape hne hds hhead, hcanon, Bool.true_or]
  · show (if (stripNumClean (pyStripList (ds ++ '.' :: ' ' :: name.data))).isEmpty
        then (⟨pyStripList (ds ++ '.' :: ' ' :: name.data)⟩ : String)
        else ⟨pyTitle (stripNumClean (pyStripList (ds ++ '.' :: ' ' :: name.data)))⟩)
        = ⟨pyTitle name.data⟩
    rw [hstrip, stripNumClean_digits hne hds (dropWhile_ws_of_headD hhead), hne']
    rfl

/-- C3 counterexample: the dotted-numeral line of the claim is not
classified as a heading. -/
theorem claim_C3_counterexample : isHeading "3.2 Related Work" = false := by decide

/-- C3 witness: a single-group numbered canonical heading is accepted and
normalized. -/
theorem claim_C3_witness :
    isHeading ⟨['3'] ++ '.' :: ' ' :: "related work".data⟩ = true
    ∧ cleanHeading ⟨['3'] ++ '.' :: ' ' :: "related work".data⟩
        = ⟨pyTitle "related work".data⟩ :=
  claim_C3.2.2 ['3'] "related work" (by decide) (by decide) (by decide) (by decide)

/-- C4 (corrected): sections built by the HTML structurer always have
non-empty content, but the PDF structurer performs no such check: a
heading immediately followed by another heading yields a Section with
empty content. -/
theorem claim_C4 :
    (∀ d : Node, ∀ s ∈ extractSections d, s.content ≠ "")
    ∧ (structureText c4Text "pdf").sections.map Section.content = ["", "body"] :=
  ⟨fun d s hs => (extractSections_ok d s hs).1, by decide⟩

/-- C4 counterexample: the PDF structurer emits an Introduction section
with empty content. -/
theorem claim_C4_counterexample :
    (structureText c4Text "pdf").sections.head?
      = some { heading := "Introduction", content := "" } := by decide

/-- C4 witness: the HTML non-empty-content invariant at a concrete
document. -/
theorem claim_C4_witness :
    ({ heading := "Full Paper", content := "just text" } : Section).content ≠ "" :=
  claim_C4.1 domPlain { heading := "Full Paper", content := "just text" } (by decide)

/-- C5 (confirmed): `all_sections()` prepends a synthetic Abstract section
exactly when the abstract is non-empty, and is the plain sections list
otherwise. -/
theorem claim_C5 (p : Paper) :
    (p.abstract ≠ "" →
      p.all_sections
          = { heading := "Abstract", content := p.abstract, translated := none } :: p.sections
      ∧ p.all_sections.length = p.sections.length + 1)
    ∧ (p.abstract = "" → p.all_sections = p.sections) := by
  refine ⟨fun h => ⟨?_, ?_⟩, fun h => ?_⟩
  · simp [Paper.all_sections, h]
  · simp [Paper.all_sections, h]
  · simp [Paper.all_sections, h]

/-- C5 witness: both branches at concrete papers. -/
theorem claim_C5_witness :
    (pEx.all_sections
        = { heading := "Abstract", content := "A", translated := none } :: pEx.sections
      ∧ pEx.all_sections.length = pEx.sections.length + 1)
    ∧ pExNoAbs.all_sections = pExNoAbs.sections :=
  ⟨(claim_C5 pEx).1 (by decide), (claim_C5 pExNoAbs).2 rfl⟩

/-- C6 (confirmed): with no `ltx_section` wrappers and no heading-level
elements among the body's direct children, the HTML structurer synthesizes
exactly one "Full Paper" section from the document's full trimmed text when
that text is non-empty, and no section at all when it is empty. -/
theorem claim_C6 (d : Node)
    (hltx : (findAllClass "ltx_section" d).isEmpty = true)
    (hnohead : ∀ n ∈ childNodes ((findTag "body" d).getD d), isHeadingElem n = false) :
    (getTextStrip "\n" d ≠ "" →
      extractSections d = [{ heading := "Full Paper", content := getTextStrip "\n" d }])
    ∧ (getTextStrip "\n" d = "" → extractSections d = []) := by
  unfold extractSections
  rw [if_pos hltx, parseGeneric_noheads d hnohead]
  constructor
  · intro h; rw [if_neg h]
  · intro h; rw [if_pos h]

/-- C6 witness: both branches at concrete documents. -/
theorem claim_C6_witness :
    extractSections domPlain = [{ heading := "Full Paper", content := "just text" }]
    ∧ extractSections domBare = [] := by
  constructor
  · have h := (claim_C6 domPlain (by decide) (by decide)).1 (by decide)
    rw [h]; decide
  · exact (claim_C6 domBare (by decide) (by decide)).2 (by decide)

/-- Source URL of any successful generic (non-arXiv-preferred) fetch. -/
theorem fetchGeneric_src {net : String → Except Unit HttpResponse}
    {parseDom : String → Node} {pdfEx : List Nat → String} {url : String} {p : Paper}
    (hp : (fetchGeneric net parseDom pdfEx url).result = Except.ok p) :
    p.source_url = some url := by
  unfold fetchGeneric at hp
  cases hnet : net url with
  | error e =>
    simp only [hnet] at hp
    exact absurd hp (by simp)
  | ok resp =>
    simp only [hnet] at hp
    by_cases h2 : is2xx resp.status = true
    · rw [if_pos h2] at hp
      by_cases h3 : containsStr "pdf" resp.contentType = true
      · rw [if_pos h3] at hp
        have hp' : Except.ok { parsePdfBytes pdfEx resp.content with source_url := some url }
            = Except.ok p := hp
        injection hp' with hpp
        subst hpp
        rfl
      · rw [if_neg h3] at hp
        have hp' : Except.ok { parseHtmlString parseDom resp.respText with source_url := some url }
            = Except.ok p := hp
        injection hp' with hpp
        subst hpp
        rfl
    · rw [if_neg h2] at hp
      exact absurd hp (by simp)

/-- The request log of the PDF-fallback block. -/
theorem fetchArxivPdf_requests {net : String → Except Unit HttpResponse}
    {pdfEx : List Nat → String} {url arxivId : String} :
    (fetchArxivPdf net pdfEx url arxivId).requests
      = [arxivHtmlUrl arxivId, arxivPdfUrl arxivId] := by
  unfold fetchArxivPdf
  cases net (arxivPdfUrl arxivId) with
  | error e => rfl
  | ok resp =>
    repeat' split
    all_goals rfl

/-- A non-2xx PDF response is surfaced as an `httpStatus` error. -/
theorem fetchArxivPdf_err {net : String → Except Unit HttpResponse}
    {pdfEx : List Nat → String} {url arxivId : String} {r : HttpResponse}
    (hr : net (arxivPdfUrl arxivId) = .ok r) (h2xx : is2xx r.status = false) :
    (fetchArxivPdf net pdfEx url arxivId).result = .error (.httpStatus r.status) := by
  unfold fetchArxivPdf
  simp only [hr]
  rw [if_neg (by simp [h2xx])]

/-- Source URL of a successful PDF-fallback fetch. -/
theorem fetchArxivPdf_src {net : String → Except Unit HttpResponse}
    {pdfEx : List Nat → String} {url arxivId : String} {p : Paper}
    (hp : (fetchArxivPdf net pdfEx url arxivId).result = Except.ok p) :
    p.source_url = some url := by
  unfold fetchArxivPdf at hp
  cases hnet : net (arxivPdfUrl arxivId) with
  | error e =>
    simp only [hnet] at hp
    exact absurd hp (by simp)
  | ok resp =>
    simp only [hnet] at hp
    by_cases h2 : is2xx resp.status = true
    · rw [if_pos h2] at hp
      have hp' : Except.ok { parsePdfBytes pdfEx resp.content with source_url := some url }
          = Except.ok p := hp
      injection hp' with hpp
      subst hpp
      rfl
    · rw [if_neg h2] at hp
      exact absurd hp (by simp)

/-- C7 (confirmed): for an arXiv URL with HTML preferred, a failed or
non-qualifying HTML-rendering response surfaces no error and triggers
exactly one fallback GET of the arXiv PDF URL, whose non-2xx status is
surfaced; a non-arXiv URL gets exactly one GET; every successful result
carries the original input URL as `source_url`. -/
theorem claim_C7 :
    (∀ (net : String → Except Unit HttpResponse) (parseDom : String → Node)
        (pdfEx : List Nat → String) (url arxivId : String),
      arxivIdFromUrl url = some arxivId →
      (∀ r, net (arxivHtmlUrl arxivId) = .ok r →
        ¬(r.status = 200 ∧ containsStr "text/html" r.contentType = true)) →
      (fetchRemote net parseDom pdfEx url true).requests
          = [arxivHtmlUrl arxivId, arxivPdfUrl arxivId]
      ∧ ∀ r2, net (arxivPdfUrl arxivId) = .ok r2 → is2xx r2.status = false →
          (fetchRemote net parseDom pdfEx url true).result
            = .error (.httpStatus r2.status))
    ∧ (∀ (net : String → Except Unit HttpResponse) (parseDom : String → Node)
        (pdfEx : List Nat → String) (url : String) (preferHtml : Bool),
      arxivIdFromUrl url = none →
      (fetchRemote net parseDom pdfEx url preferHtml).requests = [url])
    ∧ (∀ (net : String → Except Unit HttpResponse) (parseDom : String → Node)
        (pdfEx : List Nat → String) (url : String) (preferHtml : Bool) (p : Paper),
      (fetchRemote net parseDom pdfEx url preferHtml).result = Except.ok p →
      p.source_url = some url) := by
  refine ⟨?_, ?_, ?_⟩
  · intro net parseDom pdfEx url arxivId hid hq
    have hfetch : fetchRemote net parseDom pdfEx url true = fetchArxivPdf net pdfEx url arxivId := by
      unfold fetchRemote
      rw [hid]
      show (match net (arxivHtmlUrl arxivId) with
        | .ok resp =>
          if resp.status = 200 && containsStr "text/html" resp.contentType then
            { result := .ok { parseHtmlString parseDom resp.respText with source_url := some url },
              requests := [arxivHtmlUrl arxivId] }
          else fetchArxivPdf net pdfEx url arxivId
        | .error _ => fetchArxivPdf net pdfEx url arxivId) = fetchArxivPdf net pdfEx url arxivId
      cases hnet : net (arxivHtmlUrl arxivId) with
      | error e => rfl
      | ok r =>
        have hnq := hq r hnet
        have hcond : (decide (r.status = 200) && containsStr "text/html" r.contentType) = false := by
          by_cases h1 : r.status = 200
          · have h2 : containsStr "text/html" r.contentType = false := by
              by_cases h2 : containsStr "text/html" r.contentType = true
              · exact absurd ⟨h1, h2⟩ hnq
              · simpa using h2
            simp [h2]
          · simp [h1]
        repeat' split
        all_goals try rfl
        all_goals
          rename_i resp2 heq2 hct
          injection heq2 with heq2'
          subst heq2'
          rw [hcond] at hct
          exact absurd hct (by simp)
    rw [hfetch]
    exact ⟨fetchArxivPdf_requests, fun r2 hr2 h2xx => fetchArxivPdf_err hr2 h2xx⟩
  · intro net parseDom pdfEx url preferHtml hid
    have hfetch : fetchRemote net parseDom pdfEx url preferHtml
        = fetchGeneric net parseDom pdfEx url := by
      unfold fetchRemote
      rw [hid]
    rw [hfetch]
    unfold fetchGeneric
    cases net url with
    | error e => rfl
    | ok resp =>
      repeat' split
      all_goals rfl
  · intro net parseDom pdfEx url preferHtml p hp
    unfold fetchRemote at hp
    cases hid : arxivIdFromUrl url with
    | none =>
      simp only [hid] at hp
      exact fetchGeneric_src hp
    | some arxivId =>
      simp only [hid] at hp
      by_cases hpref : preferHtml = true
      · rw [if_pos hpref] at hp
        cases hnet : net (arxivHtmlUrl arxivId) with
        | error e =>
          simp only [hnet] at hp
          exact fetchArxivPdf_src hp
        | ok r =>
          simp only [hnet] at hp
          by_cases hc : (decide (r.status = 200) && containsStr "text/html" r.contentType) = true
          · rw [if_pos hc] at hp
            have hp' : Except.ok
                { parseHtmlString parseDom r.respText with source_url := some url }
                = Except.ok p := hp
            injection hp' with hpp
            subst hpp
            rfl
          · rw [if_neg hc] at hp
            exact fetchArxivPdf_src hp
      · rw [if_neg hpref] at hp
        exact fetchGeneric_src hp

/-- C7 witness: the fallback at a concrete oracle (HTML rendering answers
500, PDF answers 404), the single GET for a non-arXiv URL, and the
source_url of a concrete success. -/
theorem claim_C7_witness :
    (fetchRemote netEx domOracle pdfOracle "https://arxiv.org/abs/2301.12345" true).requests
        = [arxivHtmlUrl "2301.12345", arxivPdfUrl "2301.12345"]
    ∧ (fetchRemote netEx domOracle pdfOracle "https://arxiv.org/abs/2301.12345" true).result
        = .error (.httpStatus 404)
    ∧ (fetchRemote netEx domOracle pdfOracle "https://example.com/a" true).requests
        = ["https://example.com/a"]
    ∧ ({ title := "Untitled", authors := [], abstract := "", sections := [],
         source_url := some "https://example.com/b", source_format := "html" } : Paper).source_url
        = some "https://example.com/b" := by
  have hq : ∀ r, netEx (arxivHtmlUrl "2301.12345") = .ok r →
      ¬(r.status = 200 ∧ containsStr "text/html" r.contentType = true) := by
    intro r hr
    have h0 : netEx (arxivHtmlUrl "2301.12345")
        = Except.ok ⟨500, "text/html", "", []⟩ := rfl
    rw [h0] at hr
    injection hr with hr'
    subst hr'
    intro hcontra
    exact absurd hcontra.1 (by decide)
  obtain ⟨hreq, hres⟩ := claim_C7.1 netEx domOracle pdfOracle
    "https://arxiv.org/abs/2301.12345" "2301.12345" (by decide) hq
  refine ⟨hreq, ?_, ?_, ?_⟩
  · exact hres ⟨404, "application/pdf", "", []⟩ rfl (by decide)
  · exact claim_C7.2.1 netEx domOracle pdfOracle "https://example.com/a" true (by decide)
  · exact claim_C7.2.2 netOk domOracle pdfOracle "https://example.com/b" true _ rfl

/-- C8 (confirmed): `ToneLevel(tone)` is validated first — an out-of-range
tone yields the invalid-tone error with no provider check, no fetch and no
LLM call recorded — and every tone 1-5 has a tone block, so the system
prompt is the base rules plus that block. -/
theorem claim_C8 (providerOk : Bool) (upload : Option String) (url : String) (t : Int) :
    ((t < 1 ∨ 5 < t) →
      webTranslate providerOk upload url t = (.error (.invalidTone t), []))
    ∧ (1 ≤ t → t ≤ 5 →
      (toneOfInt t).isSome = true
      ∧ ∀ tl, toneOfInt t = some tl →
          lookupTone tl ≠ none
          ∧ buildSystemPrompt tl
              = (lookupTone tl).map fun b => BASE_INSTRUCTIONS ++ "\n" ++ b) := by
  constructor
  · intro h
    have hn : toneOfInt t = none := by
      unfold toneOfInt
      split_ifs <;> first | rfl | omega
    unfold webTranslate
    rw [hn]
  · intro h1 h2
    have ht : t = 1 ∨ t = 2 ∨ t = 3 ∨ t = 4 ∨ t = 5 := by omega
    rcases ht with rfl | rfl | rfl | rfl | rfl
    · refine ⟨rfl, ?_⟩
      intro tl htl
      rw [show toneOfInt 1 = some ToneLevel.LIGHT from rfl] at htl
      injection htl with htl'
      subst htl'
      exact ⟨by decide, rfl⟩
    · refine ⟨rfl, ?_⟩
      intro tl htl
      rw [show toneOfInt 2 = some ToneLevel.MODERATE from rfl] at htl
      injection htl with htl'
      subst htl'
      exact ⟨by decide, rfl⟩
    · refine ⟨rfl, ?_⟩
      intro tl htl
      rw [show toneOfInt 3 = some ToneLevel.BALANCED from rfl] at htl
      injection htl with htl'
      subst htl'
      exact ⟨by decide, rfl⟩
    · refine ⟨rfl, ?_⟩
      intro tl htl
      rw [show toneOfInt 4 = some ToneLevel.HEAVY from rfl] at htl
      injection htl with htl'
      subst htl'
      exact ⟨by decide, rfl⟩
    · refine ⟨rfl, ?_⟩
      intro tl htl
      rw [show toneOfInt 5 = some ToneLevel.UNHINGED from rfl] at htl
      injection htl with htl'
      subst htl'
      exact ⟨by decide, rfl⟩

/-- C8 witness: tones 0 and 6 are rejected with an empty effect log, tone 3
resolves and has a prompt block. -/
theorem claim_C8_witness :
    webTranslate true none "u" 6 = (.error (.invalidTone 6), [])
    ∧ webTranslate true none "u" 0 = (.error (.invalidTone 0), [])
    ∧ (toneOfInt 3).isSome = true
    ∧ lookupTone ToneLevel.BALANCED ≠ none :=
  ⟨(claim_C8 true none "u" 6).1 (by omega),
    (claim_C8 true none "u" 0).1 (by omega),
    ((claim_C8 true none "u" 3).2 (by omega) (by omega)).1,
    ((((claim_C8 true none "u" 3).2 (by omega) (by omega)).2) ToneLevel.BALANCED rfl).1⟩

/-- C9 (corrected): no line whose trimmed form exceeds 80 characters is a
heading; and for a numbered line "N. text" whose free-text part is not
itself a canonical name, the generic pattern accepts exactly the free-text
lengths 3 through 61 — not 60: the regex `\S.{2,60}` matches one
non-whitespace character plus 2 to 60 more, so a 61-character free text is
still a heading. -/
theorem claim_C9 :
    (∀ line : String, 80 < (pyStripList line.data).length → isHeading line = false)
    ∧ ∀ (ds ts : List Char), ds ≠ [] →
        (∀ c ∈ ds, isAsciiDigit c = true) → ts ≠ [] →
        pyIsSpace (ts.headD '.') = false →
        pyIsSpace (ts.reverse.headD '.') = false →
        (∀ c ∈ ts, ¬(c = '\n')) →
        canonTail ts = false →
        ds.length + 2 + ts.length ≤ 80 →
        (isHeading ⟨ds ++ '.' :: ' ' :: ts⟩ = true ↔ 3 ≤ ts.length ∧ ts.length ≤ 61) := by
  constructor
  · intro line hlong
    show (!(pyStripList line.data).isEmpty && decide ((pyStripList line.data).length ≤ 80)
        && isHeadingCore (pyStripList line.data)) = false
    rw [decide_eq_false (by omega)]
    simp
  · intro ds ts hne hds htne hhead hlast hnl hcanon hlen
    rw [isHeading_stripped (pyStripList_heading_shape hne hds htne hlast) (by simp)
      (by simp only [List.length_append, List.length_cons]; omega)]
    rw [isHeadingCore_numshape hne hds hhead, hcanon, Bool.false_or]
    obtain ⟨c, t, rfl⟩ := List.exists_cons_of_ne_nil htne
    rw [List.headD_cons] at hhead
    have hall : (t.all fun ch => ch != '\n') = true := by
      rw [List.all_eq_true]
      intro x hx
      simpa using hnl x (List.mem_cons_of_mem _ hx)
    have hgen : genericTail (c :: t)
        = (!pyIsSpace c && decide (2 ≤ t.length) && decide (t.length ≤ 60)
            && t.all fun ch => ch != '\n') := rfl
    rw [hgen, hhead, hall]
    simp only [Bool.not_false, Bool.true_and, Bool.and_true, Bool.and_eq_true,
      decide_eq_true_eq, List.length_cons]
    omega

/-- C9 counterexample: a numbered heading whose free-text part has 61
characters is classified as a heading, against the claimed 60-character
bound. -/
theorem claim_C9_counterexample :
    isHeading ("1. " ++ (⟨List.replicate 61 'a'⟩ : String)) = true
    ∧ (List.replicate 61 'a').length = 61 := by decide

/-- C9 witness: the over-80 cap and the amended bound at a concrete
61-character free text. -/
theorem claim_C9_witness :
    isHeading ⟨List.replicate 81 'x'⟩ = false
    ∧ isHeading ⟨['1'] ++ '.' :: ' ' :: List.replicate 61 'b'⟩ = true :=
  ⟨claim_C9.1 ⟨List.replicate 81 'x'⟩ (by decide),
    (claim_C9.2 ['1'] (List.replicate 61 'b') (by decide) (by decide) (by decide) (by decide)
      (by decide) (by decide) (by decide) (by decide)).mpr (by decide)⟩

/-- C10 (confirmed): on whitespace-only input the PDF structurer returns an
empty title, empty abstract, and exactly one "Full Paper" section with
empty content, while the HTML structurer (with no section wrappers and no
heading children) produces zero sections for a textless document. -/
theorem claim_C10 :
    (∀ text : String, (∀ c ∈ text.data, pyIsSpace c = true) →
      structureText text "pdf"
        = { title := "", authors := [], abstract := "",
            sections := [{ heading := "Full Paper", content := "" }],
            source_url := none, source_format := "pdf" })
    ∧ (∀ d : Node, (findAllClass "ltx_section" d).isEmpty = true →
        (∀ n ∈ childNodes ((findTag "body" d).getD d), isHeadingElem n = false) →
        getTextStrip "\n" d = "" → extractSections d = []) := by
  constructor
  · intro text htext
    have hlineheads : ∀ l ∈ splitOnNl text.data, isHeading ⟨l⟩ = false := fun l hl =>
      isHeading_of_all_ws fun c hc => htext c (mem_splitOnNl hl c hc)
    have hfind : (splitOnNl text.data).find? (fun l => !(pyStripList l).isEmpty) = none := by
      rw [List.find?_eq_none]
      intro l hl
      simp [pyStripList_all_ws fun c hc => htext c (mem_splitOnNl hl c hc)]
    simp only [structureText]
    rw [hfind, foldl_stepLine_no_heading hlineheads, pyStripList_all_ws htext]
    rfl
  · intro d h1 h2 h3
    unfold extractSections
    rw [if_pos h1, parseGeneric_noheads d h2, if_pos h3]

/-- C10 witness: both structurers at concrete textless inputs. -/
theorem claim_C10_witness :
    structureText "  \n " "pdf"
      = { title := "", authors := [], abstract := "",
          sections := [{ heading := "Full Paper", content := "" }],
          source_url := none, source_format := "pdf" }
    ∧ extractSections domBare = [] :=
  ⟨claim_C10.1 "  \n " (by decide), claim_C10.2 domBare (by decide) (by decide) (by decide)⟩

end Millennialifier
